import Mathlib

/-!
Verification development for the civic-mcp adapter sandbox runtime.

The definitions below are shallow embeddings of the runtime's source
functions: the shared SDK utilities (packages/sdk), the in-page sandbox
(packages/extension/src/core/sandbox.ts), the declarative interpreter
(packages/extension/src/core/plugin-loader.ts), the test harness
(packages/testing/src/harness.ts) and the standalone server sandbox
(packages/mcp-server/src/sandbox.ts).  Strings are modelled with Lean's
String (lists of characters); JavaScript string helpers used by the
source (startsWith, split, trim, toLowerCase) are re-implemented over
character lists so every definition is executable and kernel-reducible.
-/

namespace CivicMcp

/-! ## JavaScript string helpers (character-list models) -/

/-- Model of JS String.prototype.startsWith: s starts with p. -/
def strStartsWith (s p : String) : Bool :=
  p.data.isPrefixOf s.data

/-- Model of JS str.split for the one-character separator. -/
def splitOnChar (sep : Char) (l : List Char) : List (List Char) :=
  l.foldr
    (fun c acc =>
      if c = sep then [] :: acc
      else
        match acc with
        | [] => [[c]]
        | h :: t => (c :: h) :: t)
    [[]]

/-- Model of Array.prototype.join for a one-character separator. -/
def joinChar (sep : Char) : List (List Char) → List Char
  | [] => []
  | [x] => x
  | x :: y :: rest => x ++ sep :: joinChar sep (y :: rest)

/-- JS whitespace test used by trim and parseFloat skipping (common
ASCII whitespace plus NBSP). -/
def jsWhitespace (c : Char) : Bool :=
  c = ' ' || c = '\t' || c = '\n' || c = '\r' ||
  c.toNat = 0x0B || c.toNat = 0x0C || c.toNat = 0xA0

/-- Model of JS String.prototype.trim. -/
def strTrim (s : String) : String :=
  String.mk (((s.data.dropWhile jsWhitespace).reverse.dropWhile jsWhitespace).reverse)

/-- Lower-case an ASCII character (the case-insensitive regex flag of the
source only meets ASCII vocabulary words). -/
def asciiLower (c : Char) : Char :=
  if 65 ≤ c.toNat ∧ c.toNat ≤ 90 then Char.ofNat (c.toNat + 32) else c

/-- Whether needle occurs as a contiguous substring of hay. -/
def containsSub (hay needle : List Char) : Bool :=
  (List.range (hay.length + 1)).any (fun i => needle.isPrefixOf (hay.drop i))

/-! ## SDK utilities (packages/sdk — dom utilities module) -/

/-- `pluginStorageKey(pluginId, key)`: the scoped chrome.storage key
"civic-mcp:plugin:{pluginId}:{key}". -/
def pluginStorageKey (pluginId key : String) : String :=
  "civic-mcp:plugin:" ++ pluginId ++ ":" ++ key

/-- The namespace marker "civic-mcp:plugin:{pluginId}:" the in-page
storage backend filters its keys by. -/
def pluginKeyPre (pluginId : String) : String :=
  "civic-mcp:plugin:" ++ pluginId ++ ":"

/-- `namespacedToolName(pluginId, toolName)`: "{pluginId}.{toolName}". -/
def namespacedToolName (pluginId toolName : String) : String :=
  pluginId ++ "." ++ toolName

/-- The hostname/pathname pair produced by a successful `new URL(url)`;
an unparsable URL is `none` at the call sites below. -/
structure URLParts where
  hostname : String
  pathname : String
  deriving DecidableEq, Repr

/-- The host component of a domain allow-list entry: everything before
the first "/" (the head of `domain.split('/')`). -/
def hostOf (domain : String) : String :=
  String.mk ((splitOnChar '/' domain.data).headD [])

/-- The declared path of a domain entry: "" when the entry is a bare
host, otherwise "/" followed by the remaining "/"-joined segments. -/
def pathPreOf (domain : String) : String :=
  let parts := (splitOnChar '/' domain.data).tail
  if parts.isEmpty then "" else String.mk ('/' :: joinChar '/' parts)

/-- One allow-list entry test, as in `isUrlAllowed`'s `some` callback:
hostname must equal the entry's host; a declared path requires the
pathname to start with it. -/
def domainMatches (u : URLParts) (domain : String) : Bool :=
  if u.hostname ≠ hostOf domain then false
  else if pathPreOf domain ≠ "" ∧ ¬ strStartsWith u.pathname (pathPreOf domain) then false
  else true

/-- `isUrlAllowed(url, domains)` with the URL-parse outcome made
explicit: `new URL` failure (`none`) returns false, otherwise some
entry must match. -/
def isUrlAllowed (parsed : Option URLParts) (domains : List String) : Bool :=
  match parsed with
  | none => false
  | some u => domains.any (domainMatches u)

/-- `jsonByteSize(value)`: UTF-8 byte length of the serialized JSON.
Values are modelled by their serialized text, so this is the UTF-8
length of that text. -/
def jsonByteSize (v : String) : Nat :=
  (v.data.map Char.utf8Size).sum

/-- `MAX_STORAGE_BYTES`: 100 KB per-plugin storage cap. -/
def MAX_STORAGE_BYTES : Nat := 100 * 1024

/-- Characters removed by `sanitizeFieldValue`: ASCII control characters
0x00–0x08, 0x0B, 0x0C, 0x0E–0x1F and 0x7F (tab, LF and CR survive). -/
def isStrippedCtl (c : Char) : Bool :=
  c.toNat ≤ 0x08 || c.toNat = 0x0B || c.toNat = 0x0C ||
  (0x0E ≤ c.toNat && c.toNat ≤ 0x1F) || c.toNat = 0x7F

/-- `sanitizeFieldValue(value)`: strip the control characters above. -/
def sanitizeFieldValue (v : String) : String :=
  String.mk (v.data.filter (fun c => ¬ isStrippedCtl c))

/-! ## JS number parsing (parseFloat model)

The declarative output coercion calls the JS builtin
`parseFloat(raw.replace(/[,$]/g, ''))`.  parseFloat skips leading
whitespace, accepts an optional sign, then the longest decimal-literal
prefix (digits, optional fraction, optional exponent) or "Infinity";
anything else yields NaN.  Finite values are modelled exactly as
rationals (the model ignores IEEE-754 rounding of the decimal literal);
NaN is `none`. -/

/-- A non-NaN JS number produced by parseFloat, kept in the syntactic
form the literal had: sign, integer-part digits value, fraction digits
value, number of fraction digits, exponent.  `toRat` below gives the
numeric value; the split keeps parsing decidable by kernel reduction. -/
inductive JSNum where
  | finite (sgn : Int) (ip fp : Nat) (fpLen : Nat) (e : Int)
  | posInf
  | negInf
  deriving DecidableEq, Repr

/-- Numeric value of a parsed literal (0 for the infinite cases, which
are kept apart by the callers). -/
def JSNum.toRat : JSNum → ℚ
  | .finite s ip fp l e =>
    (s : ℚ) * ((ip : ℚ) + (fp : ℚ) / (10 : ℚ) ^ l) *
      (if 0 ≤ e then (10 : ℚ) ^ e.toNat else 1 / (10 : ℚ) ^ (-e).toNat)
  | _ => 0

/-- Numeric value of a digit run (most significant first). -/
def digitsVal (l : List Char) : Nat :=
  l.foldl (fun a c => 10 * a + (c.toNat - 48)) 0

/-- Grab the leading digit run. -/
def takeDigits (l : List Char) : List Char × List Char :=
  (l.takeWhile Char.isDigit, l.dropWhile Char.isDigit)

/-- Exponent suffix `e`/`E` with optional sign; an `e` not followed by a
digit is ignored (exponent 0), as parseFloat does. -/
def parseExponent (l : List Char) : Int :=
  match l with
  | 'e' :: rest | 'E' :: rest =>
    let (sgn, rest') : Int × List Char :=
      match rest with
      | '+' :: r => (1, r)
      | '-' :: r => (-1, r)
      | _ => (1, rest)
    let (ds, _) := takeDigits rest'
    if ds.isEmpty then 0 else sgn * (digitsVal ds : Int)
  | _ => 0

/-- Leading-sign handling of parseFloat: a "+" or "-" is consumed,
anything else leaves the input as is with sign +1. -/
def parseSign (cs : List Char) : Int × List Char :=
  match cs with
  | '+' :: r => (1, r)
  | '-' :: r => (-1, r)
  | _ => (1, cs)

/-- Model of the JS builtin parseFloat. -/
def parseFloatM (s : String) : Option JSNum :=
  let (sgn, cs) := parseSign (s.data.dropWhile jsWhitespace)
  if "Infinity".data.isPrefixOf cs then
    some (if sgn = 1 then .posInf else .negInf)
  else
    let (ip, cs₁) := takeDigits cs
    let (fp, cs₂) :=
      match cs₁ with
      | '.' :: r => takeDigits r
      | _ => ([], cs₁)
    if ip.isEmpty ∧ fp.isEmpty then none
    else some (.finite sgn (digitsVal ip) (digitsVal fp) fp.length (parseExponent cs₂))

/-! ## Declarative output coercion (plugin-loader.ts coerceOutput) -/

/-- Output value types of a DeclarativeToolSpec output field. -/
inductive OutputType where
  | text | number | boolean | html | url | date
  deriving DecidableEq, Repr

/-- A JSON value appearing in a tool result's data map (numbers exact,
with infinities kept apart since `parseFloat` can produce them). -/
inductive JsonVal where
  | null
  | str (s : String)
  | num (q : ℚ)
  | inf (pos : Bool)
  | bool (b : Bool)
  deriving DecidableEq, Repr

/-- `raw.replace(/[,$]/g, '')`: drop every comma and dollar sign. -/
def stripNum (s : String) : String :=
  String.mk (s.data.filter (fun c => c ≠ ',' ∧ c ≠ '$'))

/-- `/yes|true|eligible|approved/i.test(raw)` — a case-insensitive
substring search for any of the affirmative vocabulary words. -/
def boolVocabTest (raw : String) : Bool :=
  let l := raw.data.map asciiLower
  containsSub l "yes".data || containsSub l "true".data ||
  containsSub l "eligible".data || containsSub l "approved".data

/-- `coerceOutput(raw, type)`.  The number branch is
`parseFloat(stripped) || null`: NaN and ±0 are falsy, so both become
null; infinities are truthy and pass.  The value-is-zero test is
rendered on the parsed digit runs (`ip = 0 ∧ fp = 0`), which equals
`toRat = 0` for the signs parseFloat produces (`toRat_eq_zero_iff`). -/
def coerceOutput (raw : Option String) (t : OutputType) : JsonVal :=
  match raw with
  | none => .null
  | some raw =>
    match t with
    | .number =>
      match parseFloatM (stripNum raw) with
      | none => .null
      | some (.finite s ip fp l e) =>
        if ip = 0 ∧ fp = 0 then .null else .num ((JSNum.finite s ip fp l e).toRat)
      | some .posInf => .inf true
      | some .negInf => .inf false
    | .boolean => .bool (boolVocabTest raw)
    | .date => .str raw
    | _ => .str raw

/-! ## Declarative tool interpreter (plugin-loader.ts registerDeclarativeTool)

The in-page DOM is modelled as a snapshot: a partial map from selector
strings to elements.  An element carries its textContent and its
attribute map, the only observations the interpreter makes. -/

/-- A DOM element as observed by the interpreter. -/
structure Elem where
  textContent : Option String
  attrs : List (String × String)
  deriving DecidableEq, Repr

/-- `el.getAttribute(name)`: null when the attribute is absent. -/
def getAttr (el : Elem) (name : String) : Option String :=
  (el.attrs.find? (fun p => p.1 = name)).map Prod.snd

/-- An output-field mapping of a DeclarativeToolSpec (the `attribute`
field of the source is `attr` here, `attribute` being reserved). -/
structure OutputDef where
  selector : String
  type : OutputType
  attr : Option String := none
  optional : Bool := false
  deriving DecidableEq, Repr

/-- An input-parameter mapping; only the selector is consulted by the
execute path modelled here (type/options/required feed the registered
input schema, not the page interaction). -/
structure InputDef where
  selector : String
  deriving DecidableEq, Repr

/-- Navigation stage of a DeclarativeToolSpec. -/
structure NavigationDef where
  url : String
  waitForSelector : Option String := none
  clickFirst : Option String := none
  deriving DecidableEq, Repr

/-- Submit stage of a DeclarativeToolSpec. -/
structure SubmitDef where
  selector : String
  waitForSelector : Option String := none
  deriving DecidableEq, Repr

/-- A declarative tool as consumed by `registerDeclarativeTool`. -/
structure DeclarativeTool where
  navigation : NavigationDef
  inputs : List (String × InputDef)
  submit : SubmitDef
  output : List (String × OutputDef)
  deriving Repr

/-- The raw value read for an output field:
`def.attribute ? el.getAttribute(def.attribute) : el.textContent?.trim()`. -/
def rawOf (el : Elem) (d : OutputDef) : Option String :=
  match d.attr with
  | some a => getAttr el a
  | none => (el.textContent).map strTrim

/-- One iteration of the output loop: a missing element is null for an
optional field and an error for a required one; a present element's raw
value is coerced by declared type. -/
def processField (page : String → Option Elem) (d : OutputDef) : Except String JsonVal :=
  match page d.selector with
  | none =>
    if d.optional then .ok .null
    else .error ("Output selector not found: \"" ++ d.selector ++ "\"")
  | some el => .ok (coerceOutput (rawOf el d) d.type)

/-- The whole output loop, building the data map in declaration order. -/
def processOutputs (page : String → Option Elem) :
    List (String × OutputDef) → Except String (List (String × JsonVal))
  | [] => .ok []
  | (k, d) :: rest => do
    let v ← processField page d
    let l ← processOutputs page rest
    .ok ((k, v) :: l)

/-- The input loop: parameters whose call argument is undefined/null are
skipped; a present argument requires the mapped field to exist
(`fillField` throws `Field not found` otherwise). -/
def fillInputs (params : String → Option String) (page : String → Option Elem) :
    List (String × InputDef) → Except String Unit
  | [] => .ok ()
  | (p, d) :: rest =>
    match params p with
    | none => fillInputs params page rest
    | some _ =>
      if (page d.selector).isSome then fillInputs params page rest
      else .error ("Field not found: \"" ++ d.selector ++ "\"")

/-- Error codes of a ToolError (sdk adapter types). -/
inductive ErrCode where
  | NAVIGATION_FAILED | SELECTOR_NOT_FOUND | VALIDATION_ERROR
  | SITE_CHANGED | AUTH_REQUIRED | RATE_LIMITED | UNKNOWN
  deriving DecidableEq, Repr

/-- A tagged tool result, `{success:true,data}` or
`{success:false,error,code}`. -/
inductive ToolResult where
  | success (data : List (String × JsonVal))
  | failure (error : String) (code : ErrCode)
  deriving DecidableEq, Repr

/-- The body of the declarative `execute` before its catch: navigate
(allow-list guard first, then the ready selector), optional first
click, fill the present inputs, click submit, wait for the results
selector, then read the outputs.  The DOM snapshot stands for the page
as the interpreter observes it. -/
def declPipeline (tool : DeclarativeTool) (params : String → Option String)
    (page : String → Option Elem) (navParsed : Option URLParts)
    (domains : List String) : Except String (List (String × JsonVal)) := do
  if ¬ isUrlAllowed navParsed domains then
    throw ("Adapter is not permitted to navigate to \"" ++ tool.navigation.url ++ "\"")
  match tool.navigation.waitForSelector with
  | some sel =>
    if (page sel).isNone then
      throw ("Selector not found within 10000ms: \"" ++ sel ++ "\"")
  | none => pure ()
  match tool.navigation.clickFirst with
  | some sel =>
    if (page sel).isNone then throw ("Element not found: \"" ++ sel ++ "\"")
  | none => pure ()
  fillInputs params page tool.inputs
  if (page tool.submit.selector).isNone then
    throw ("Element not found: \"" ++ tool.submit.selector ++ "\"")
  match tool.submit.waitForSelector with
  | some sel =>
    if (page sel).isNone then
      throw ("Selector not found within 10000ms: \"" ++ sel ++ "\"")
  | none => pure ()
  processOutputs page tool.output

/-- The registered `execute`: the pipeline inside the catch that
downgrades any thrown error to an UNKNOWN-coded tagged failure. -/
def declExecute (tool : DeclarativeTool) (params : String → Option String)
    (page : String → Option Elem) (navParsed : Option URLParts)
    (domains : List String) : ToolResult :=
  match declPipeline tool params page navParsed domains with
  | .ok data => .success data
  | .error msg => .failure msg .UNKNOWN

/-! ## Storage backends (quota-checked set)

A store is an association list from key to serialized-JSON value text;
JS object / chrome.storage semantics: setting an existing key replaces
its value in place, a new key is appended.  A `set` returns the store
after the call together with the thrown quota message, if any (a throw
leaves the store as it was). -/

/-- Key lookup (chrome.storage.local.get / store[key]). -/
def storeLookup (st : List (String × String)) (k : String) : Option String :=
  (st.find? (fun p => p.1 = k)).map Prod.snd

/-- Key update (chrome.storage.local.set / store[key] = value). -/
def storeInsert : List (String × String) → String → String → List (String × String)
  | [], k, v => [(k, v)]
  | (k', v') :: rest, k, v =>
    if k' = k then (k, v) :: rest else (k', v') :: storeInsert rest k v

/-- The in-page backend's used-byte count: every record of the shared
chrome.storage whose key carries this plugin's namespace marker,
including the record about to be overwritten. -/
def extUsedBytes (st : List (String × String)) (pluginId : String) : Nat :=
  ((st.filter (fun e => strStartsWith e.1 (pluginKeyPre pluginId))).map
    (fun e => jsonByteSize e.2)).sum

/-- `set` of the in-page (extension) storage backend. -/
def extSet (st : List (String × String)) (pluginId k v : String) :
    List (String × String) × Option String :=
  if extUsedBytes st pluginId + jsonByteSize v > MAX_STORAGE_BYTES then
    (st, some "Storage quota exceeded (max 100 KB per plugin)")
  else
    (storeInsert st (pluginStorageKey pluginId k) v, none)

/-- The server backend's existing-byte count: every record of the
adapter's own file except the one stored under the key being written. -/
def mcpExistingBytes (st : List (String × String)) (k : String) : Nat :=
  ((st.filter (fun e => e.1 ≠ k)).map (fun e => jsonByteSize e.2)).sum

/-- `set` of the standalone-server storage backend (the store is the
adapter's own file, keys are unprefixed). -/
def mcpSet (st : List (String × String)) (k v : String) :
    List (String × String) × Option String :=
  if mcpExistingBytes st k + jsonByteSize v > MAX_STORAGE_BYTES then
    (st, some "Storage quota exceeded")
  else
    (storeInsert st k v, none)

/-- Total serialized size of an adapter namespace's records (the
claim-side quantity "existing records"). -/
def totalBytes (st : List (String × String)) : Nat :=
  (st.map (fun e => jsonByteSize e.2)).sum

/-! ## Human-in-the-loop coordinator -/

/-- The HumanRequest record the in-page backend publishes to shared
storage (prompt and timestamp omitted: the wait loop reads only
requestId and status). -/
structure HumanReq where
  requestId : String
  status : String
  deriving DecidableEq, Repr

/-- Outcome of the in-page wait loop. -/
inductive WaitOutcome where
  | resolved
  | timedOut
  deriving DecidableEq, Repr

/-- The in-page `waitForHuman` poll loop: each list entry is the value
of the shared storage key seen by one poll before the deadline; the
list's end is the deadline.  The loop returns (resolves the suspension)
when the record is gone, carries a different requestId, or is
completed; reaching the deadline throws the timeout error. -/
def extWaitForHuman (requestId : String) : List (Option HumanReq) → WaitOutcome
  | [] => .timedOut
  | obs :: rest =>
    match obs with
    | none => .resolved
    | some req =>
      if req.requestId ≠ requestId then .resolved
      else if req.status = "completed" then .resolved
      else extWaitForHuman requestId rest

/-- Outcome of a server-backend waitForHuman, where the headed path can
block without any deadline. -/
inductive HWOutcome where
  | success
  | timedOut
  | hangs
  deriving DecidableEq, Repr

/-- Headless server path: a throwaway HTTP listener; `doneAt` is the
time of the user's Done click, if it ever happens.  The `setTimeout`
timer rejects at `timeoutMs`; a click strictly before it resolves. -/
def waitForHumanViaHttp (doneAt : Option Nat) (timeoutMs : Nat) : HWOutcome :=
  match doneAt with
  | some t => if t < timeoutMs then .success else .timedOut
  | none => .timedOut

/-- Headed readline path (server and harness alike): resolves when the
operator presses Enter; no timer is armed, so without input it blocks
forever. -/
def waitForHumanViaReadline (enterAt : Option Nat) : HWOutcome :=
  match enterAt with
  | some _ => .success
  | none => .hangs

/-- The server backend's `waitForHuman`: default timeout 10 minutes;
headed uses readline, headless the HTTP listener. -/
def mcpWaitForHuman (headed : Bool) (doneAt : Option Nat) (timeoutOpt : Option Nat) : HWOutcome :=
  let timeout := timeoutOpt.getD (10 * 60 * 1000)
  if headed then waitForHumanViaReadline doneAt
  else waitForHumanViaHttp doneAt timeout

/-- Errors surfaced by the test harness to its caller; `humanRequired`
is the HumanRequiredError class, `generic` any other Error. -/
inductive HarnessErr where
  | humanRequired (prompt : String)
  | generic (msg : String)
  deriving DecidableEq, Repr

/-- Outcome of the harness's waitForHuman. -/
inductive HOutcome where
  | ok
  | err (e : HarnessErr)
  | hangs
  deriving DecidableEq, Repr

/-- The harness default prompt. -/
def harnessDefaultPrompt : String :=
  "Manual step required — complete the action in the browser window"

/-- The test harness's `waitForHuman`: headless throws
HumanRequiredError at once (no waiting on any operator event); headed
blocks on readline until Enter. -/
def harnessWaitForHuman (isHeaded : Bool) (promptOpt : Option String)
    (enterAt : Option Nat) : HOutcome :=
  let prompt := promptOpt.getD harnessDefaultPrompt
  if ¬ isHeaded then .err (.humanRequired prompt)
  else
    match enterAt with
    | some _ => .ok
    | none => .hangs

/-! ## fillField value handling per backend -/

/-- Text handed to the driver by the in-page backend's fillField. -/
def extFillValue (v : String) : String := sanitizeFieldValue v

/-- Text handed to the driver by the server backend's fillField. -/
def mcpFillValue (v : String) : String := sanitizeFieldValue v

/-- Text handed to the driver by the test harness's fillField
(harness.ts passes the value through unmodified). -/
def harnessFillValue (v : String) : String := v

/-- The `navigate` entry guard shared by every backend: `guardUrl`
throws the not-permitted error before any page action; `.ok ()` stands
for the navigation action having been performed. -/
def navigate (parsed : Option URLParts) (domains : List String) : Except String Unit :=
  if isUrlAllowed parsed domains then .ok ()
  else .error "Adapter is not permitted to navigate to this URL"

/-- A run of `n` copies of one character, for building concrete storage
payloads of a known serialized size. -/
def repStr (c : Char) (n : Nat) : String :=
  String.mk (List.replicate n c)

/-! # Theorems -/

/-! ## Shared helper lemmas -/

lemma string_data_inj {s t : String} (h : s.data = t.data) : s = t := by
  cases s; cases t; exact congrArg String.mk h

lemma string_append_data (s t : String) : (s ++ t).data = s.data ++ t.data := rfl

lemma append_dot_inj : ∀ (xs ys us vs : List Char), '.' ∉ us → '.' ∉ vs →
    xs ++ '.' :: us = ys ++ '.' :: vs → xs = ys ∧ us = vs := by
  intro xs
  induction xs with
  | nil =>
    intro ys us vs hu hv h
    cases ys with
    | nil =>
      simp only [List.nil_append] at h
      exact ⟨rfl, (List.cons.injEq _ _ _ _ ▸ h).2⟩
    | cons y ys' =>
      simp only [List.nil_append, List.cons_append] at h
      obtain ⟨h1, h2⟩ := List.cons.inj h
      exact absurd (h2 ▸ List.mem_append_right ys' (List.mem_cons_self _ _)) hu
  | cons x xs' ih =>
    intro ys us vs hu hv h
    cases ys with
    | nil =>
      simp only [List.nil_append, List.cons_append] at h
      obtain ⟨h1, h2⟩ := List.cons.inj h
      exact absurd (h2.symm ▸ List.mem_append_right xs' (List.mem_cons_self _ _)) hv
    | cons y ys' =>
      simp only [List.cons_append] at h
      obtain ⟨h1, h2⟩ := List.cons.inj h
      obtain ⟨ha, hb⟩ := ih ys' us vs hu hv h2
      exact ⟨by rw [h1, ha], hb⟩

lemma namespaced_data (A T : String) :
    (namespacedToolName A T).data = A.data ++ '.' :: T.data := by
  show ((A ++ ".") ++ T).data = _
  rw [string_append_data, string_append_data, List.append_assoc]
  rfl

lemma domainMatches_iff (u : URLParts) (d : String) :
    domainMatches u d = true ↔
      (u.hostname = hostOf d ∧
        (pathPreOf d ≠ "" → strStartsWith u.pathname (pathPreOf d) = true)) := by
  unfold domainMatches
  split_ifs with h1 h2
  · simp only [Bool.false_eq_true, false_iff]
    intro hc
    exact h1 hc.1
  · simp only [Bool.false_eq_true, false_iff]
    intro hc
    exact h2.2 (hc.2 h2.1)
  · push_neg at h1 h2
    simp only [true_iff]
    refine ⟨h1, fun hp => ?_⟩
    by_cases hs : strStartsWith u.pathname (pathPreOf d) = true
    · exact hs
    · exact absurd (h2 hp) (by simpa using hs)

lemma storeLookup_cons_ne (k' v' k : String) (st : List (String × String)) (h : k' ≠ k) :
    storeLookup ((k', v') :: st) k = storeLookup st k := by
  simp [storeLookup, List.find?, h]

lemma storeLookup_insert (st : List (String × String)) (k v : String) :
    storeLookup (storeInsert st k v) k = some v := by
  induction st with
  | nil => simp [storeInsert, storeLookup]
  | cons e rest ih =>
    obtain ⟨k', v'⟩ := e
    by_cases h : k' = k
    · rw [storeInsert, if_pos h]
      simp [storeLookup, List.find?]
    · rw [storeInsert, if_neg h, storeLookup_cons_ne _ _ _ _ h]
      exact ih

lemma jsonByteSize_repStr (c : Char) (n : Nat) (h : c.utf8Size = 1) :
    jsonByteSize (repStr c n) = n := by
  simp [jsonByteSize, repStr, List.map_replicate, h, List.sum_replicate]

lemma totalBytes_singleton (k v : String) : totalBytes [(k, v)] = jsonByteSize v := by
  simp [totalBytes]

lemma mcpExistingBytes_singleton_same (k old : String) :
    mcpExistingBytes [(k, old)] k = 0 := by
  simp [mcpExistingBytes]

lemma mcpSet_singleton_same (k old new : String)
    (h : jsonByteSize new ≤ MAX_STORAGE_BYTES) :
    mcpSet [(k, old)] k new = ([(k, new)], none) := by
  rw [mcpSet, mcpExistingBytes_singleton_same, if_neg (by omega)]
  simp [storeInsert]

lemma storeLookup_singleton (k v : String) : storeLookup [(k, v)] k = some v := by
  simp [storeLookup]

lemma processField_required_missing (page : String → Option Elem) (d : OutputDef)
    (h : page d.selector = none) (ho : d.optional = false) :
    processField page d = .error ("Output selector not found: \"" ++ d.selector ++ "\"") := by
  simp [processField, h, ho]

lemma processOutputs_error_of_mem (page : String → Option Elem) :
    ∀ (outs : List (String × OutputDef)) (k : String) (d : OutputDef),
      (k, d) ∈ outs → page d.selector = none → d.optional = false →
      ∃ m, processOutputs page outs = .error m := by
  intro outs
  induction outs with
  | nil => intro k d hm; exact absurd hm (List.not_mem_nil _)
  | cons e rest ih =>
    intro k d hm h ho
    obtain ⟨k', d'⟩ := e
    rcases List.mem_cons.mp hm with heq | htail
    · have hd : d' = d := (Prod.ext_iff.mp heq.symm).2
      subst hd
      refine ⟨"Output selector not found: \"" ++ d'.selector ++ "\"", ?_⟩
      rw [processOutputs, processField_required_missing page d' h ho]
      rfl
    · cases hpf : processField page d' with
      | error m => exact ⟨m, by rw [processOutputs, hpf]; rfl⟩
      | ok v =>
        obtain ⟨m, hm'⟩ := ih k d htail h ho
        exact ⟨m, by rw [processOutputs, hpf]; simp [Bind.bind, Except.bind, hm']⟩

lemma processOutputs_ok_map (page : String → Option Elem) :
    ∀ (outs : List (String × OutputDef)) (l : List (String × JsonVal)),
      processOutputs page outs = .ok l →
      l = outs.map (fun e => (e.1,
        match processField page e.2 with | .ok v => v | .error _ => JsonVal.null)) := by
  intro outs
  induction outs with
  | nil => intro l h; simpa [processOutputs] using h.symm
  | cons e rest ih =>
    intro l h
    obtain ⟨k', d'⟩ := e
    rw [processOutputs] at h
    cases hpf : processField page d' with
    | error m => rw [hpf] at h; exact absurd h (by simp [Bind.bind, Except.bind])
    | ok v =>
      rw [hpf] at h
      cases hrest : processOutputs page rest with
      | error m =>
        rw [hrest] at h
        exact absurd h (by simp [Bind.bind, Except.bind])
      | ok l' =>
        rw [hrest] at h
        simp only [Bind.bind, Except.bind] at h
        obtain rfl : (k', v) :: l' = l := by
          simpa using (Except.ok.injEq _ _ ▸ h)
        simp only [List.map_cons, hpf]
        exact congrArg _ (ih l' hrest)

lemma toRat_zero_digits (sg : Int) (l : Nat) (e : Int) :
    (JSNum.finite sg 0 0 l e).toRat = 0 := by
  simp [JSNum.toRat]

lemma toRat_ne_zero (sg : Int) (ip fp l : Nat) (e : Int)
    (hs : sg = 1 ∨ sg = -1) (hd : ¬ (ip = 0 ∧ fp = 0)) :
    (JSNum.finite sg ip fp l e).toRat ≠ 0 := by
  have hsq : (sg : ℚ) ≠ 0 := by rcases hs with rfl | rfl <;> norm_num
  have hP : (if 0 ≤ e then (10 : ℚ) ^ e.toNat else 1 / (10 : ℚ) ^ (-e).toNat) ≠ 0 := by
    split_ifs <;> positivity
  have hm : (0 : ℚ) < (ip : ℚ) + (fp : ℚ) / (10 : ℚ) ^ l := by
    rcases not_and_or.mp hd with h | h
    · have h1 : (1 : ℚ) ≤ (ip : ℚ) := by exact_mod_cast Nat.one_le_iff_ne_zero.mpr h
      have h2 : (0 : ℚ) ≤ (fp : ℚ) / (10 : ℚ) ^ l := by positivity
      linarith
    · have h1 : (0 : ℚ) < (fp : ℚ) / (10 : ℚ) ^ l := by
        apply div_pos _ (by positivity)
        exact_mod_cast Nat.pos_of_ne_zero h
      have h2 : (0 : ℚ) ≤ (ip : ℚ) := Nat.cast_nonneg ip
      linarith
  rw [JSNum.toRat]
  exact mul_ne_zero (mul_ne_zero hsq (ne_of_gt hm)) hP

lemma parseSign_sgn (cs : List Char) : (parseSign cs).1 = 1 ∨ (parseSign cs).1 = -1 := by
  unfold parseSign
  split <;> simp

lemma parseFloatM_sgn (s : String) (sg : Int) (ip fp l : Nat) (e : Int)
    (h : parseFloatM s = some (.finite sg ip fp l e)) : sg = 1 ∨ sg = -1 := by
  unfold parseFloatM at h
  simp only at h
  have hsgn := parseSign_sgn (s.data.dropWhile jsWhitespace)
  split at h
  · split at h <;> simp_all
  · split at h
    · exact absurd h (by simp)
    · injection h with h'
      injection h' with h1
      rw [← h1]
      exact hsgn

/-! ## Claim theorems -/

/-- C1: in the in-page backend's waitForHuman poll loop, a store
observation carrying a requestId different from the active one makes
the suspended call resolve successfully — it is not ignored, contrary
to the claim that only the matching requestId's completion may resolve
the wait (the call should otherwise time out at the deadline). -/
theorem ext_waitForHuman_mismatch_resolves :
    extWaitForHuman "A" [some ⟨"B", "pending"⟩] = .resolved ∧
    WaitOutcome.resolved ≠ WaitOutcome.timedOut := by
  constructor
  · decide
  · decide

/-- C2 counterexample: the "." separator occurs inside component
strings, so two distinct (adapter id, tool name) pairs share one
namespaced name — the namespacing function is not injective and the
pair cannot always be recovered unambiguously. -/
theorem namespacedToolName_not_injective :
    namespacedToolName "a.b" "c" = namespacedToolName "a" "b.c" ∧
    ¬ ("a.b" = "a" ∧ "c" = "b.c") := by
  constructor
  · decide
  · decide

/-- C2 amended: the namespaced name starts with the adapter id and ends
with the tool name, and the pair round-trips whenever the tool names
contain no "." separator; joint injectivity over arbitrary pairs fails
because "." occurs inside reverse-DNS adapter ids. -/
theorem namespacedToolName_shape_roundtrip :
    (∀ A T : String, ∃ r, namespacedToolName A T = A ++ r) ∧
    (∀ A T : String, ∃ l, namespacedToolName A T = l ++ T) ∧
    (∀ A₁ T₁ A₂ T₂ : String, '.' ∉ T₁.data → '.' ∉ T₂.data →
      namespacedToolName A₁ T₁ = namespacedToolName A₂ T₂ → A₁ = A₂ ∧ T₁ = T₂) := by
  refine ⟨fun A T => ⟨"." ++ T, ?_⟩, fun A T => ⟨A ++ ".", rfl⟩, ?_⟩
  · apply string_data_inj
    rw [namespaced_data, string_append_data, string_append_data]
    rfl
  · intro A₁ T₁ A₂ T₂ h₁ h₂ h
    have hd := congrArg String.data h
    rw [namespaced_data, namespaced_data] at hd
    obtain ⟨ha, hb⟩ := append_dot_inj _ _ _ _ h₁ h₂ hd
    exact ⟨string_data_inj ha, string_data_inj hb⟩

/-- C2 witness: the round-trip theorem applied to a dot-free tool name
under a reverse-DNS adapter id. -/
theorem namespacedToolName_shape_roundtrip_witness :
    ('.' ∉ "check".data ∧ '.' ∉ "check".data ∧
      namespacedToolName "gov.a" "check" = namespacedToolName "gov.a" "check") ∧
    ("gov.a" = "gov.a" ∧ "check" = "check") :=
  ⟨⟨by decide, by decide, rfl⟩,
    namespacedToolName_shape_roundtrip.2.2 "gov.a" "check" "gov.a" "check"
      (by decide) (by decide) rfl⟩

/-- C3 counterexample: overwriting a 60000-byte record with a
50000-byte value in the server backend: the namespace's existing
records (60000 bytes) plus the new value (50000 bytes) exceed the
102400-byte quota, yet the call is applied with no quota error — the
pre-call value under the key really was the old record. -/
theorem mcp_set_overwrite_quota_counterexample :
    totalBytes [("a", repStr 'a' 60000)] + jsonByteSize (repStr 'b' 50000)
        > MAX_STORAGE_BYTES ∧
    mcpSet [("a", repStr 'a' 60000)] "a" (repStr 'b' 50000)
        = ([("a", repStr 'b' 50000)], none) ∧
    storeLookup [("a", repStr 'a' 60000)] "a" = some (repStr 'a' 60000) := by
  have h1 : jsonByteSize (repStr 'a' 60000) = 60000 := jsonByteSize_repStr _ _ (by decide)
  have h2 : jsonByteSize (repStr 'b' 50000) = 50000 := jsonByteSize_repStr _ _ (by decide)
  have ht : totalBytes [("a", repStr 'a' 60000)] = 60000 :=
    (totalBytes_singleton "a" _).trans h1
  refine ⟨?_, ?_, storeLookup_singleton _ _⟩
  · rw [ht, h2, MAX_STORAGE_BYTES]
    norm_num
  · exact mcpSet_singleton_same _ _ _ (by rw [h2, MAX_STORAGE_BYTES]; norm_num)

/-- C3 amended: every backend rejects an over-quota write with a quota
error, leaving the store unchanged (a subsequent get observes the
pre-call records), and applies a write within the quota — but the
backends count "existing bytes" differently: the in-page backend counts
every record of the namespace including the one being overwritten,
while the server backend counts every record except the one stored
under the written key. -/
theorem storage_set_quota :
    (∀ st id k v, extUsedBytes st id + jsonByteSize v > MAX_STORAGE_BYTES →
      (extSet st id k v).1 = st ∧ (extSet st id k v).2.isSome = true) ∧
    (∀ st id k v, extUsedBytes st id + jsonByteSize v ≤ MAX_STORAGE_BYTES →
      (extSet st id k v).2 = none ∧
      storeLookup (extSet st id k v).1 (pluginStorageKey id k) = some v) ∧
    (∀ st k v, mcpExistingBytes st k + jsonByteSize v > MAX_STORAGE_BYTES →
      (mcpSet st k v).1 = st ∧ (mcpSet st k v).2.isSome = true) ∧
    (∀ st k v, mcpExistingBytes st k + jsonByteSize v ≤ MAX_STORAGE_BYTES →
      (mcpSet st k v).2 = none ∧ storeLookup (mcpSet st k v).1 k = some v) := by
  refine ⟨fun st id k v h => ?_, fun st id k v h => ?_, fun st k v h => ?_, fun st k v h => ?_⟩
  · rw [extSet, if_pos h]
    exact ⟨rfl, rfl⟩
  · rw [extSet, if_neg (by omega)]
    exact ⟨rfl, storeLookup_insert _ _ _⟩
  · rw [mcpSet, if_pos h]
    exact ⟨rfl, rfl⟩
  · rw [mcpSet, if_neg (by omega)]
    exact ⟨rfl, storeLookup_insert _ _ _⟩

/-- C3 witness: an in-quota write to an empty namespace is applied and
readable back. -/
theorem storage_set_quota_witness :
    (extUsedBytes [] "p" + jsonByteSize "7" ≤ MAX_STORAGE_BYTES) ∧
    ((extSet [] "p" "k" "7").2 = none ∧
      storeLookup (extSet [] "p" "k" "7").1 (pluginStorageKey "p" "k") = some "7") :=
  ⟨by decide, storage_set_quota.2.1 [] "p" "k" "7" (by decide)⟩

/-- C4: navigate performs its action exactly when some allow-list entry
matches the parsed URL — the entry's host must equal the hostname and,
when the entry declares a path, the pathname must start with it (so a
host mismatch and a path mismatch both reject); an unparsable URL
always fails. -/
theorem navigate_allowlist :
    (∀ (u : URLParts) (D : List String),
      navigate (some u) D = .ok () ↔
        ∃ d ∈ D, u.hostname = hostOf d ∧
          (pathPreOf d ≠ "" → strStartsWith u.pathname (pathPreOf d) = true)) ∧
    (∀ D : List String, ∃ m, navigate none D = .error m) := by
  constructor
  · intro u D
    unfold navigate
    rw [show isUrlAllowed (some u) D = D.any (domainMatches u) from rfl]
    constructor
    · intro h
      by_cases ha : D.any (domainMatches u) = true
      · obtain ⟨d, hd, hm⟩ := List.any_eq_true.mp ha
        exact ⟨d, hd, (domainMatches_iff u d).mp hm⟩
      · rw [if_neg (by simpa using ha)] at h
        exact absurd h (by simp)
    · intro ⟨d, hd, hm⟩
      rw [if_pos (List.any_eq_true.mpr ⟨d, hd, (domainMatches_iff u d).mpr hm⟩)]
  · intro D
    exact ⟨_, rfl⟩

/-- C4 witness: a URL on the declared host whose path extends the
declared path is allowed through. -/
theorem navigate_allowlist_witness :
    navigate (some ⟨"colorado.gov", "/peak/apply"⟩) ["colorado.gov/peak"] = .ok () :=
  (navigate_allowlist.1 ⟨"colorado.gov", "/peak/apply"⟩ ["colorado.gov/peak"]).mpr
    ⟨"colorado.gov/peak", by decide, by decide, fun _ => by decide⟩

/-- C5 counterexample: a declarative call whose submit selector is
absent returns the tagged failure with code UNKNOWN — not
SELECTOR_NOT_FOUND as the claim states (the catch-all downgrades every
thrown error to UNKNOWN). -/
theorem decl_submit_missing_counterexample :
    declExecute
        { navigation := { url := "https://x.example/apply" }
          inputs := []
          submit := { selector := "#submit" }
          output := [] }
        (fun _ => none) (fun _ => none)
        (some { hostname := "x.example", pathname := "/apply" }) ["x.example"]
      = .failure "Element not found: \"#submit\"" .UNKNOWN ∧
    ErrCode.UNKNOWN ≠ ErrCode.SELECTOR_NOT_FOUND := by
  constructor
  · decide
  · decide

/-- C5 amended: a declarative tool call against a page whose submit
selector does not exist returns the tagged error result
success-false with code UNKNOWN and an element-not-found message,
rather than letting the exception escape the tool boundary. -/
theorem decl_submit_missing_tagged :
    ∀ (tool : DeclarativeTool) (params : String → Option String)
      (page : String → Option Elem) (parsed : Option URLParts) (domains : List String),
      isUrlAllowed parsed domains = true →
      tool.navigation.waitForSelector = none →
      tool.navigation.clickFirst = none →
      fillInputs params page tool.inputs = .ok () →
      page tool.submit.selector = none →
      declExecute tool params page parsed domains
        = .failure ("Element not found: \"" ++ tool.submit.selector ++ "\"") .UNKNOWN := by
  intro tool params page parsed domains hnav hw hc hf hs
  rw [declExecute]
  have hp : declPipeline tool params page parsed domains
      = .error ("Element not found: \"" ++ tool.submit.selector ++ "\"") := by
    rw [declPipeline]
    simp [hnav, hw, hc, hf, hs, Bind.bind, Except.bind, Pure.pure, Except.pure]
  rw [hp]

/-- C5 witness: the amended theorem at a concrete tool and page. -/
theorem decl_submit_missing_tagged_witness :
    declExecute
        { navigation := { url := "https://y.example/form" }
          inputs := []
          submit := { selector := "#go" }
          output := [] }
        (fun _ => none) (fun _ => none)
        (some { hostname := "y.example", pathname := "/form" }) ["y.example"]
      = .failure "Element not found: \"#go\"" .UNKNOWN :=
  decl_submit_missing_tagged _ _ _ _ _ (by decide) rfl rfl rfl rfl

/-- C6: the output stage maps a missing optional field to null, fails
the whole call on a missing required field, coerces a present field's
raw text (or named attribute) by declared type — and on a successful
call the data map is exactly the per-field coercion in declaration
order; concretely "Yes, you are eligible" coerces to boolean true and
"$1,234.50" coerces to the number 1234.5. -/
theorem decl_output_coercion :
    (∀ (page : String → Option Elem) (d : OutputDef),
      page d.selector = none → d.optional = true → processField page d = .ok .null) ∧
    (∀ (page : String → Option Elem) (outs : List (String × OutputDef)) (k : String)
        (d : OutputDef),
      (k, d) ∈ outs → page d.selector = none → d.optional = false →
      ∃ m, processOutputs page outs = .error m) ∧
    (∀ (page : String → Option Elem) (d : OutputDef) (el : Elem),
      page d.selector = some el →
      processField page d = .ok (coerceOutput (rawOf el d) d.type)) ∧
    (∀ (page : String → Option Elem) (outs : List (String × OutputDef))
        (l : List (String × JsonVal)),
      processOutputs page outs = .ok l →
      l = outs.map (fun e => (e.1,
        match processField page e.2 with | .ok v => v | .error _ => JsonVal.null))) ∧
    coerceOutput (some "Yes, you are eligible") .boolean = .bool true ∧
    coerceOutput (some "$1,234.50") .number = .num (2469 / 2) := by
  refine ⟨fun page d h ho => by simp [processField, h, ho],
    processOutputs_error_of_mem, fun page d el h => by simp [processField, h],
    processOutputs_ok_map, by decide, ?_⟩
  have h : parseFloatM (stripNum "$1,234.50") = some (.finite 1 1234 50 2 0) := by decide
  simp only [coerceOutput, h]
  rw [if_neg (by decide)]
  norm_num [JSNum.toRat]

/-- C6 witness: a missing optional output field produces null. -/
theorem decl_output_coercion_witness :
    ((fun _ => (none : Option Elem)) "#fee" = none ∧
      ({ selector := "#fee", type := .number, optional := true } : OutputDef).optional = true) ∧
    processField (fun _ => none) { selector := "#fee", type := .number, optional := true }
      = .ok .null :=
  ⟨⟨rfl, rfl⟩, decl_output_coercion.1 (fun _ => none)
    { selector := "#fee", type := .number, optional := true } rfl rfl⟩

/-- C7: the harness's waitForHuman in headless mode fails at once with
the HumanRequiredError carrying its prompt, independent of any operator
input (it never blocks), and that error is distinct from every generic
error, so callers can catch it separately. -/
theorem harness_headless_failfast :
    ∀ (promptOpt : Option String) (enterAt : Option Nat),
      harnessWaitForHuman false promptOpt enterAt
        = .err (.humanRequired (promptOpt.getD harnessDefaultPrompt)) ∧
      harnessWaitForHuman false promptOpt enterAt
        = harnessWaitForHuman false promptOpt none ∧
      harnessWaitForHuman false promptOpt enterAt ≠ .hangs ∧
      (∀ m, HarnessErr.humanRequired (promptOpt.getD harnessDefaultPrompt) ≠ .generic m) := by
  intro promptOpt enterAt
  refine ⟨rfl, rfl, by simp [harnessWaitForHuman], fun m => by simp⟩

/-- C7 witness: the fail-fast theorem at a concrete prompt/operator
instant. -/
theorem harness_headless_failfast_witness :
    harnessWaitForHuman false none (some 42)
      = .err (.humanRequired harnessDefaultPrompt) :=
  (harness_headless_failfast none (some 42)).1

/-- C8 counterexample: the server backend's headed waitForHuman ignores
the caller-supplied timeout — with no operator input it hangs rather
than failing with a timeout error at the deadline. -/
theorem mcp_headed_no_deadline_counterexample :
    mcpWaitForHuman true none (some 600000) = .hangs ∧
    HWOutcome.hangs ≠ .timedOut ∧ HWOutcome.hangs ≠ .success := by
  refine ⟨rfl, by decide, by decide⟩

/-- C8 amended: the in-page poll loop (observing its own matching
request) resolves when the request is marked completed before the
deadline and times out when it stays pending at every poll, and the
server's headless HTTP path never hangs — it succeeds exactly when the
Done acknowledgment arrives before the timeout (default 10 minutes) and
otherwise fails with the timeout error; the headed readline path is the
exception, blocking without a deadline. -/
theorem waitForHuman_bounded :
    (∀ (id : String) (obs : List (Option HumanReq)),
      (∀ o ∈ obs, ∃ r, o = some r ∧ r.requestId = id) →
      (((∃ o ∈ obs, ∃ r, o = some r ∧ r.status = "completed") →
          extWaitForHuman id obs = .resolved) ∧
        ((∀ o ∈ obs, ∀ r, o = some r → r.status ≠ "completed") →
          extWaitForHuman id obs = .timedOut))) ∧
    (∀ (doneAt : Option Nat) (timeoutOpt : Option Nat),
      mcpWaitForHuman false doneAt timeoutOpt ≠ .hangs ∧
      (mcpWaitForHuman false doneAt timeoutOpt = .success ↔
        ∃ t, doneAt = some t ∧ t < timeoutOpt.getD (10 * 60 * 1000))) := by
  constructor
  · intro id obs
    induction obs with
    | nil =>
      intro _
      exact ⟨fun ⟨o, ho, _⟩ => absurd ho (List.not_mem_nil o), fun _ => rfl⟩
    | cons o₀ rest ih =>
      intro hmatch
      obtain ⟨r₀, rfl, hid⟩ := hmatch o₀ (List.mem_cons_self _ _)
      have hrest := fun o ho => hmatch o (List.mem_cons_of_mem _ ho)
      constructor
      · rintro ⟨o, ho, r', hor, hst⟩
        rcases List.mem_cons.mp ho with rfl | htail
        · obtain rfl : r' = r₀ := by injection hor with hv; exact hv.symm
          rw [extWaitForHuman]
          simp [hid, hst]
        · rw [extWaitForHuman]
          by_cases hc : r₀.status = "completed"
          · simp [hid, hc]
          · simp only [hid, ne_eq, not_true_eq_false, if_false, hc, if_neg]
            exact (ih hrest).1 ⟨o, htail, r', hor, hst⟩
      · intro hall
        have h₀ : r₀.status ≠ "completed" := hall _ (List.mem_cons_self _ _) r₀ rfl
        rw [extWaitForHuman]
        simp only [hid, ne_eq, not_true_eq_false, if_false, h₀, if_neg]
        exact (ih hrest).2 fun o ho r hr => hall o (List.mem_cons_of_mem _ ho) r hr
  · intro doneAt timeoutOpt
    cases doneAt with
    | none =>
      refine ⟨by simp [mcpWaitForHuman, waitForHumanViaHttp], ?_⟩
      simp [mcpWaitForHuman, waitForHumanViaHttp]
    | some t =>
      by_cases h : t < timeoutOpt.getD (10 * 60 * 1000)
      · refine ⟨by simp [mcpWaitForHuman, waitForHumanViaHttp, h], ?_⟩
        simp [mcpWaitForHuman, waitForHumanViaHttp, h]
      · refine ⟨by simp [mcpWaitForHuman, waitForHumanViaHttp, h], ?_⟩
        simp [mcpWaitForHuman, waitForHumanViaHttp, h]

/-- C8 witness: a single completed matching observation resolves the
in-page wait. -/
theorem waitForHuman_bounded_witness :
    ((∀ o ∈ [some (⟨"r1", "completed"⟩ : HumanReq)], ∃ r, o = some r ∧ r.requestId = "r1") ∧
      (∃ o ∈ [some (⟨"r1", "completed"⟩ : HumanReq)],
        ∃ r, o = some r ∧ r.status = "completed")) ∧
    extWaitForHuman "r1" [some ⟨"r1", "completed"⟩] = .resolved := by
  refine ⟨⟨?_, ?_⟩, ?_⟩
  · intro o ho
    simp only [List.mem_singleton] at ho
    exact ⟨⟨"r1", "completed"⟩, ho, rfl⟩
  · exact ⟨some ⟨"r1", "completed"⟩, List.mem_singleton.mpr rfl, ⟨"r1", "completed"⟩, rfl, rfl⟩
  · exact (waitForHuman_bounded.1 "r1" [some ⟨"r1", "completed"⟩]
      (fun o ho => ⟨⟨"r1", "completed"⟩, List.mem_singleton.mp ho, rfl⟩)).1
      ⟨some ⟨"r1", "completed"⟩, List.mem_singleton.mpr rfl, ⟨"r1", "completed"⟩, rfl, rfl⟩

/-- C9: the in-page and server backends strip control characters from a
fillField value, but the test harness passes the value through
unmodified — a NUL byte reaches the driver there, breaking the
identical-contract claim at a concrete input. -/
theorem harness_fill_unsanitized :
    harnessFillValue "a\x00b" = "a\x00b" ∧
    sanitizeFieldValue "a\x00b" = "ab" ∧
    (∃ c ∈ (harnessFillValue "a\x00b").data, isStrippedCtl c = true) ∧
    extFillValue "a\x00b" = "ab" ∧ mcpFillValue "a\x00b" = "ab" := by
  refine ⟨rfl, by decide, ⟨'\x00', by decide, by decide⟩, by decide, by decide⟩

/-- C10: declarative number coercion maps any text parsing to the value
0 — such as "$0.00" or "0" — to null (a falsy parse result becomes
null), while every text parsing to a nonzero finite value coerces to
that number. -/
theorem coerce_number_zero_to_null :
    coerceOutput (some "$0.00") .number = .null ∧
    coerceOutput (some "0") .number = .null ∧
    (∀ (s : String) (sg : Int) (ip fp l : Nat) (e : Int),
      parseFloatM (stripNum s) = some (.finite sg ip fp l e) →
      (JSNum.finite sg ip fp l e).toRat = 0 →
      coerceOutput (some s) .number = .null) ∧
    (∀ (s : String) (sg : Int) (ip fp l : Nat) (e : Int),
      parseFloatM (stripNum s) = some (.finite sg ip fp l e) →
      (JSNum.finite sg ip fp l e).toRat ≠ 0 →
      coerceOutput (some s) .number = .num ((JSNum.finite sg ip fp l e).toRat)) := by
  refine ⟨by decide, by decide, ?_, ?_⟩
  · intro s sg ip fp l e hp hz
    have hs := parseFloatM_sgn _ _ _ _ _ _ hp
    have hd : ip = 0 ∧ fp = 0 := by
      by_contra hd
      exact toRat_ne_zero sg ip fp l e hs hd hz
    simp only [coerceOutput, hp]
    rw [if_pos hd]
  · intro s sg ip fp l e hp hz
    have hd : ¬ (ip = 0 ∧ fp = 0) := by
      rintro ⟨rfl, rfl⟩
      exact hz (toRat_zero_digits sg l e)
    simp only [coerceOutput, hp]
    rw [if_neg hd]

/-- C10 witness: "$7" parses to the nonzero value 7 and coerces to that
number. -/
theorem coerce_number_zero_to_null_witness :
    (parseFloatM (stripNum "$7") = some (.finite 1 7 0 0 0) ∧
      (JSNum.finite 1 7 0 0 0).toRat ≠ 0) ∧
    coerceOutput (some "$7") .number = .num ((JSNum.finite 1 7 0 0 0).toRat) := by
  have h1 : parseFloatM (stripNum "$7") = some (.finite 1 7 0 0 0) := by decide
  have h2 : (JSNum.finite 1 7 0 0 0).toRat ≠ 0 := by
    norm_num [JSNum.toRat]
  exact ⟨⟨h1, h2⟩, coerce_number_zero_to_null.2.2.2 "$7" 1 7 0 0 0 h1 h2⟩

end CivicMcp
